import Mathlib

/-!
Verification of the doctor-patient queue backend (`src/run.py`).

The program is a single Flask module with three SQLAlchemy models
(`User`, `Queue`, `Consultation`) and a handful of request handlers.
We embed the persistent store as a `DB` structure holding the three
tables as lists (in row-insertion order, matching SQLite rowid order),
and each handler as a pure state-transition function translated
line-by-line from the source.

Conventions of the embedding:
* timestamps (`joined_at`, `start_time`, `end_time`, the handler's `now`)
  are modelled as `Int` seconds, totally ordered like `datetime` values;
  Python's `timedelta.seconds` attribute (the normalized seconds
  component, excluding whole days) is `(delta) % 86400` with
  floor/euclidean remainder, and `//` on nonnegative ints is `Int.ediv`;
* Python's stable `sorted(..., key=...)` is `List.mergeSort` (also a
  stable merge sort) with the boolean `le` test induced by the key;
* Python float arithmetic in `estimate_wait_time` (one `sum/len` and one
  product) is modelled exactly over `ℚ`, and `int(...)` as truncation
  toward zero of the rational;
* SQLAlchemy `query.get(pk)` / `filter_by(...).first()` is `List.find?`,
  `filter_by(...).all()` is `List.filter`, `session.delete(obj)` erases
  the found row, `session.add` appends; the `add`+`delete`+single
  `commit` of `complete_consultation` is one pure state update, so the
  embedding commits both effects or (on the 404 path) neither.
-/

namespace DocQueue

/-- `User` model (src/run.py lines 27-45). -/
structure User where
  id : String
  email : String
  password : String
  role : String
  first_name : String
  last_name : String
  specialty : String
deriving DecidableEq, Repr

/-- `Queue` model, one waiting-line entry (src/run.py lines 47-56). -/
structure QueueEntry where
  id : Nat
  user_id : String
  doctor_id : String
  joined_at : Int
  is_emergency : Bool
deriving DecidableEq, Repr

/-- `Consultation` model (src/run.py lines 58-65); `duration_minutes` is a
nullable integer column. -/
structure Consultation where
  id : Nat
  patient_id : String
  doctor_id : String
  start_time : Int
  end_time : Int
  duration_minutes : Option Int
deriving DecidableEq, Repr

/-- The persistent store: the three tables, each in insertion order. -/
structure DB where
  users : List User
  queue : List QueueEntry
  consultations : List Consultation
deriving DecidableEq, Repr

/-! ## sort_queue helper (src/run.py lines 70-73)

`sorted(queue_list, key=lambda x: (x.is_emergency, x.joined_at))`:
lexicographic on the pair, with `False < True` on booleans. -/

/-- Boolean comparison test for the sort key `(x.is_emergency, x.joined_at)`:
`a` may come before `b` iff its key tuple is `≤` lexicographically. -/
def sortQueueLE (a b : QueueEntry) : Bool :=
  (!a.is_emergency && b.is_emergency) ||
    (a.is_emergency == b.is_emergency && decide (a.joined_at ≤ b.joined_at))

/-- `sort_queue` (src/run.py lines 70-73): Python's stable sort with key
`(x.is_emergency, x.joined_at)`. -/
def sort_queue (queue_list : List QueueEntry) : List QueueEntry :=
  queue_list.mergeSort sortQueueLE

/-! ## Wait-time estimator (src/run.py lines 76-99) -/

/-- Truncation toward zero of a rational, Python's `int(...)` on a float. -/
def ratTrunc (q : ℚ) : Int :=
  Int.tdiv q.num q.den

/-- The query
`db.session.query(Consultation.duration_minutes).filter_by(doctor_id=...)`
(src/run.py line 83): one nullable duration per consultation of the doctor. -/
def historicalDurations (db : DB) (doctor_id : String) : List (Option Int) :=
  (db.consultations.filter (fun c => c.doctor_id == doctor_id)).map
    (fun c => c.duration_minutes)

/-- `db.session.query(Queue).filter_by(doctor_id=...).count()`
(src/run.py line 96). -/
def queueLength (db : DB) (doctor_id : String) : Nat :=
  (db.queue.filter (fun e => e.doctor_id == doctor_id)).length

/-- `estimate_wait_time` (src/run.py lines 76-99): historical durations for
the doctor; default 15 when none (or none non-null); otherwise mean of
non-null durations times current queue length, truncated to an int. -/
def estimate_wait_time (db : DB) (doctor_id : String) : Int :=
  let historical_durations := historicalDurations db doctor_id
  if historical_durations.isEmpty then 15
  else
    let durations := historical_durations.filterMap id
    if durations.isEmpty then 15
    else
      let avg_duration : ℚ := (durations.map (fun d => (d : ℚ))).sum / durations.length
      let queue_length := queueLength db doctor_id
      ratTrunc (queue_length * avg_duration)

/-! ## User serialization and doctor listing (src/run.py lines 37-45, 137-141) -/

/-- `User.to_dict` (src/run.py lines 37-45): the exact key/value pairs of the
returned dictionary, in source order. -/
def User.to_dict (u : User) : List (String × String) :=
  [("id", u.id), ("email", u.email), ("role", u.role),
   ("first_name", u.first_name), ("last_name", u.last_name),
   ("specialty", u.specialty)]

/-- `get_doctors` (src/run.py lines 137-141): serialize every user whose
role is `doctor`. -/
def get_doctors (db : DB) : List (List (String × String)) :=
  (db.users.filter (fun u => u.role == "doctor")).map User.to_dict

/-! ## Join-queue handler (src/run.py lines 143-159) -/

/-- Outcome of `join_queue`: HTTP 409 conflict or 201 created. -/
inductive JoinResult where
  | conflict
  | joined
deriving DecidableEq, Repr

/-- `join_queue` (src/run.py lines 143-159). `is_emergency` is the optional
request field (`data.get('is_emergency', False)`); `now` is the creation
timestamp (`joined_at` default) and `new_id` the fresh primary key. -/
def join_queue (db : DB) (user_id doctor_id : String) (is_emergency : Option Bool)
    (now : Int) (new_id : Nat) : JoinResult × DB :=
  match db.queue.find? (fun e => e.user_id == user_id) with
  | some _ => (.conflict, db)
  | none =>
      (.joined,
        { db with queue := db.queue ++
            [{ id := new_id, user_id := user_id, doctor_id := doctor_id,
               joined_at := now, is_emergency := is_emergency.getD false }] })

/-! ## Queue-position handler (src/run.py lines 161-177) -/

/-- Response body of `get_queue_position` on success. -/
structure PositionView where
  position : Nat
  doctor_id : String
  estimated_wait_minutes : Int
deriving DecidableEq, Repr

/-- Comparison used by `order_by(Queue.joined_at)`: ascending `joined_at`. -/
def chronLE (a b : QueueEntry) : Bool :=
  decide (a.joined_at ≤ b.joined_at)

/-- `get_queue_position` (src/run.py lines 161-177): `none` models the 404
response; otherwise the 1-based index of the user's entry in the doctor's
queue ordered by `joined_at` alone. -/
def get_queue_position (db : DB) (user_id : String) : Option PositionView :=
  match db.queue.find? (fun e => e.user_id == user_id) with
  | none => none
  | some queue_entry =>
      let doctor_queue :=
        (db.queue.filter (fun e => e.doctor_id == queue_entry.doctor_id)).mergeSort chronLE
      let position := doctor_queue.findIdx (fun e => e == queue_entry) + 1
      some { position := position, doctor_id := queue_entry.doctor_id,
             estimated_wait_minutes := estimate_wait_time db queue_entry.doctor_id }

/-! ## Doctor-queue listing (src/run.py lines 179-197) -/

/-- One record of the doctor-queue listing response. -/
structure QueueView where
  queue_id : Nat
  user_id : String
  name : String
  joined_at : Int
  is_emergency : Bool
deriving DecidableEq, Repr

/-- Boolean test for the listing sort key `(not x.is_emergency, x.joined_at)`:
emergency entries first, then ascending `joined_at`. -/
def displayLE (a b : QueueEntry) : Bool :=
  (a.is_emergency && !b.is_emergency) ||
    (a.is_emergency == b.is_emergency && decide (a.joined_at ≤ b.joined_at))

/-- The sorted entry list built inside `get_doctor_queue` (src/run.py
lines 182-184), before user enrichment. -/
def doctorQueueSorted (db : DB) (doctor_id : String) : List QueueEntry :=
  (db.queue.filter (fun e => e.doctor_id == doctor_id)).mergeSort displayLE

/-- `get_doctor_queue` (src/run.py lines 179-197): sorted entries enriched
with the patient's name; entries whose `user_id` matches no user are
skipped (`if user:`). -/
def get_doctor_queue (db : DB) (doctor_id : String) : List QueueView :=
  (doctorQueueSorted db doctor_id).filterMap (fun entry =>
    (db.users.find? (fun u => u.id == entry.user_id)).map (fun user =>
      { queue_id := entry.id, user_id := user.id,
        name := user.first_name ++ " " ++ user.last_name,
        joined_at := entry.joined_at, is_emergency := entry.is_emergency }))

/-! ## Complete-consultation handler (src/run.py lines 199-224) -/

/-- Outcome of `complete_consultation`: HTTP 404 or 200. -/
inductive CompleteResult where
  | notFound
  | completed
deriving DecidableEq, Repr

/-- Python's `timedelta.seconds` attribute of `now - joined_at` at second
resolution: the normalized seconds component, i.e. the floor remainder of
the signed difference modulo 86400 — whole days are discarded. -/
def timedeltaSeconds (joined_at now : Int) : Int :=
  (now - joined_at) % 86400

/-- `duration = (now - queue_entry.joined_at).seconds // 60`
(src/run.py line 211). -/
def rawDuration (joined_at now : Int) : Int :=
  timedeltaSeconds joined_at now / 60

/-- `duration if duration > 0 else 1` (src/run.py line 218). -/
def recordedDuration (joined_at now : Int) : Int :=
  if rawDuration joined_at now > 0 then rawDuration joined_at now else 1

/-- `complete_consultation` (src/run.py lines 199-224): look up the queue
entry by primary key; 404 leaves the store untouched; otherwise one new
`Consultation` row is added and the queue row deleted, in one commit
(one state update). `now` is the completion timestamp, `new_cid` the
fresh consultation primary key. -/
def complete_consultation (db : DB) (queue_id : Nat) (now : Int) (new_cid : Nat) :
    CompleteResult × DB :=
  match db.queue.find? (fun e => e.id == queue_id) with
  | none => (.notFound, db)
  | some queue_entry =>
      let new_consultation : Consultation :=
        { id := new_cid, patient_id := queue_entry.user_id,
          doctor_id := queue_entry.doctor_id,
          start_time := queue_entry.joined_at, end_time := now,
          duration_minutes := some (recordedDuration queue_entry.joined_at now) }
      (.completed,
        { db with
            consultations := db.consultations ++ [new_consultation],
            queue := db.queue.eraseP (fun e => e.id == queue_id) })

/-! ## Concrete stores used in witness instances -/

/-- Three-entry queue for doctor `d`: `joined_at` 1 < 2 < 3 with
`is_emergency` `[false, true, false]`, every patient present in `users`. -/
def dbThree : DB :=
  { users := [⟨"u1", "u1@x", "p1", "patient", "Ann", "Ak", ""⟩,
              ⟨"u2", "u2@x", "p2", "patient", "Bob", "Bk", ""⟩,
              ⟨"u3", "u3@x", "p3", "patient", "Cat", "Ck", ""⟩],
    queue := [⟨1, "u1", "d", 1, false⟩, ⟨2, "u2", "d", 2, true⟩,
              ⟨3, "u3", "d", 3, false⟩],
    consultations := [] }

/-- Doctor `d` has durations `[10, 20, 30]` on record and two waiting
entries; doctor `e` has three waiting entries and no history. -/
def dbStats : DB :=
  { users := [],
    queue := [⟨1, "p1", "d", 1, false⟩, ⟨2, "p2", "d", 2, false⟩,
              ⟨3, "p3", "e", 3, false⟩, ⟨4, "p4", "e", 4, false⟩,
              ⟨5, "p5", "e", 5, false⟩],
    consultations := [⟨1, "a1", "d", 0, 600, some 10⟩,
                      ⟨2, "a2", "d", 0, 1200, some 20⟩,
                      ⟨3, "a3", "d", 0, 1800, some 30⟩] }

/-- A single queue entry, primary key 1, joined at time 0. -/
def entrySolo : QueueEntry := ⟨1, "p", "d", 0, false⟩

/-- Store holding just `entrySolo`. -/
def dbSolo : DB := { users := [], queue := [entrySolo], consultations := [] }

/-- The chronologically second entry of `dbTwo`, flagged emergency. -/
def entryLate : QueueEntry := ⟨2, "u2", "d", 2, true⟩

/-- Two entries for doctor `d`: a non-emergency at time 1 and the
emergency `entryLate` at time 2. -/
def dbTwo : DB :=
  { users := [], queue := [⟨1, "u1", "d", 1, false⟩, entryLate],
    consultations := [] }

/-- A doctor user with a non-empty password. -/
def docUser : User := ⟨"doc1", "doc@x", "hunter2", "doctor", "Ada", "Bell", "derm"⟩

/-- Store whose only user is `docUser`. -/
def dbDoc : DB := { users := [docUser], queue := [], consultations := [] }

/-- An emergency entry that arrived before `entryNormal`. -/
def entryEmerg : QueueEntry := ⟨1, "u1", "d", 1, true⟩

/-- A non-emergency entry that arrived after `entryEmerg`. -/
def entryNormal : QueueEntry := ⟨2, "u2", "d", 2, false⟩

/-- A queue entry whose `user_id` matches no user of `dbGhost`. -/
def entryGhost : QueueEntry := ⟨1, "ghost", "d", 1, false⟩

/-- Store with an orphan queue entry and no users. -/
def dbGhost : DB := { users := [], queue := [entryGhost], consultations := [] }

/-- Store whose only consultation for doctor `d` has a null duration. -/
def dbNull : DB :=
  { users := [], queue := [],
    consultations := [⟨1, "p", "d", 0, 60, none⟩] }

/-! ## General lemmas about the comparison functions -/

theorem displayLE_trans (a b c : QueueEntry) :
    displayLE a b → displayLE b c → displayLE a c := by
  simp only [displayLE, Bool.or_eq_true, Bool.and_eq_true, beq_iff_eq,
    Bool.not_eq_true', decide_eq_true_eq]
  cases a.is_emergency <;> cases b.is_emergency <;> cases c.is_emergency <;>
    simp <;> omega

theorem displayLE_total (a b : QueueEntry) : displayLE a b || displayLE b a := by
  simp only [displayLE, Bool.or_eq_true, Bool.and_eq_true, beq_iff_eq,
    Bool.not_eq_true', decide_eq_true_eq]
  cases a.is_emergency <;> cases b.is_emergency <;> simp <;> omega

theorem chronLE_trans (a b c : QueueEntry) :
    chronLE a b → chronLE b c → chronLE a c := by
  simp only [chronLE, decide_eq_true_eq]
  omega

theorem chronLE_total (a b : QueueEntry) : chronLE a b || chronLE b a := by
  simp only [chronLE, Bool.or_eq_true, decide_eq_true_eq]
  omega

/-- `filterMap` over a list on which `f` is everywhere defined is a `map`. -/
theorem filterMap_map_eq_map {α β γ : Type} (f : α → Option β) (g : β → γ)
    (k : α → γ) (l : List α)
    (hall : ∀ x ∈ l, ∃ y, f x = some y ∧ g y = k x) :
    (l.filterMap f).map g = l.map k := by
  induction l with
  | nil => simp
  | cons a l ih =>
    obtain ⟨y, hy, hgy⟩ := hall a (by simp)
    simp only [List.filterMap_cons, hy, List.map_cons, hgy]
    exact congrArg _ (ih fun x hx => hall x (by simp [hx]))

/-- Every record of the doctor-queue listing is produced from a queue row of
the same doctor, whose patient exists, and carries that row's id. -/
theorem get_doctor_queue_mem (db : DB) (doctor_id : String) (p : QueueView)
    (hp : p ∈ get_doctor_queue db doctor_id) :
    ∃ e ∈ db.queue, e.doctor_id = doctor_id ∧ p.queue_id = e.id ∧
      ∃ u ∈ db.users, u.id = e.user_id := by
  obtain ⟨e, he, hfe⟩ := List.mem_filterMap.mp hp
  obtain ⟨u, hu, hup⟩ := Option.map_eq_some'.mp hfe
  have hef : e ∈ (db.queue.filter (fun x => x.doctor_id == doctor_id)) := by
    simpa [doctorQueueSorted] using he
  have he' := List.mem_filter.mp hef
  refine ⟨e, he'.1, by simpa using he'.2, ?_, u, ?_, ?_⟩
  · rw [← hup]
  · exact List.mem_of_find?_eq_some hu
  · have := List.find?_some hu
    simpa using this

/-- Unfolding equation of `estimate_wait_time` with the let-bindings
expanded. -/
theorem estimate_wait_time_eq (db : DB) (doctor_id : String) :
    estimate_wait_time db doctor_id =
      if (historicalDurations db doctor_id).isEmpty then 15
      else if ((historicalDurations db doctor_id).filterMap id).isEmpty then 15
      else
        ratTrunc ((queueLength db doctor_id : ℚ) *
          ((((historicalDurations db doctor_id).filterMap id).map
              (fun d => (d : ℚ))).sum /
            ((historicalDurations db doctor_id).filterMap id).length)) := rfl

/-! ## Claim theorems -/

/-- C3: the spec claims the recorded duration is the total elapsed seconds
floor-divided by 60 (clamped to 1), also for elapsed times of one day or
more. The code uses the `timedelta.seconds` component, which discards whole
days: at `joined_at = 0`, `now = 90000` (25 hours) the handler records a
60-minute consultation where the total elapsed minutes are 1500. -/
theorem complete_consultation_day_overflow :
    (complete_consultation dbSolo 1 90000 1).2.consultations.map
        (fun c => c.duration_minutes) = [some 60] ∧
    (90000 - 0 : Int) / 60 = 1500 := by
  decide

/-- C7 counterexample: in a store whose only user is the doctor `docUser`
(password `hunter2`), the doctor-listing record has exactly the keys
`id, email, role, first_name, last_name, specialty` — no `password` key,
contradicting the claim that the password field is included. -/
theorem get_doctors_password_counterexample :
    dbDoc.users = [docUser] ∧ docUser.role = "doctor" ∧
    docUser.password = "hunter2" ∧
    (get_doctors dbDoc).map (fun r => r.map Prod.fst) =
      [["id", "email", "role", "first_name", "last_name", "specialty"]] := by
  decide

/-- C7 (amended): every record returned by the doctor listing carries
exactly the keys `id, email, role, first_name, last_name, specialty`; in
particular no `password` key (and hence no password value under that key)
is present. -/
theorem get_doctors_record_fields (db : DB) (r : List (String × String))
    (hr : r ∈ get_doctors db) :
    r.map Prod.fst = ["id", "email", "role", "first_name", "last_name", "specialty"] ∧
    ∀ v, ("password", v) ∉ r := by
  obtain ⟨u, _, rfl⟩ := List.mem_map.mp hr
  refine ⟨rfl, ?_⟩
  intro v hv
  simp only [User.to_dict, List.mem_cons, List.not_mem_nil, or_false] at hv
  rcases hv with h | h | h | h | h | h <;>
    · rw [Prod.mk.injEq] at h
      exact absurd h.1 (by decide)

theorem get_doctors_record_fields_witness :
    ((get_doctors dbDoc).head?.getD [] ∈ get_doctors dbDoc) ∧
    ((get_doctors dbDoc).head?.getD []).map Prod.fst =
      ["id", "email", "role", "first_name", "last_name", "specialty"] ∧
    ∀ v, ("password", v) ∉ (get_doctors dbDoc).head?.getD [] := by
  refine ⟨by decide, ?_⟩
  exact get_doctors_record_fields dbDoc _ (by decide)

/-- C8: the helper `sort_queue`'s docstring and the spec say it puts
emergency patients at the top, but its key is `(x.is_emergency, x.joined_at)`
with `False < True`, so non-emergency entries sort first: the emergency
entry `entryEmerg` (which even arrived earlier) comes out last. -/
theorem sort_queue_emergency_last :
    sort_queue [entryEmerg, entryNormal] = [entryNormal, entryEmerg] ∧
    entryEmerg.is_emergency = true ∧ entryNormal.is_emergency = false ∧
    entryEmerg.joined_at < entryNormal.joined_at := by
  refine ⟨?_, by decide, by decide, by decide⟩
  simp [sort_queue, List.mergeSort, List.splitInTwo, List.merge, sortQueueLE,
    entryEmerg, entryNormal]

/-- C10: when consultation records exist for the doctor but every one of
their `duration_minutes` is null, the estimator falls back to the default
15 instead of failing or averaging an empty set. -/
theorem estimate_wait_time_all_null (db : DB) (doctor_id : String)
    (h1 : db.consultations.filter (fun c => c.doctor_id == doctor_id) ≠ [])
    (h2 : ∀ c ∈ db.consultations, c.doctor_id = doctor_id →
            c.duration_minutes = none) :
    estimate_wait_time db doctor_id = 15 := by
  have hne : (historicalDurations db doctor_id).isEmpty = false := by
    rw [List.isEmpty_eq_false]
    simp only [historicalDurations, ne_eq, List.map_eq_nil_iff]
    exact h1
  have hnil : (historicalDurations db doctor_id).filterMap id = [] := by
    rw [List.filterMap_eq_nil_iff]
    intro a ha
    obtain ⟨c, hc, rfl⟩ := List.mem_map.mp ha
    have hc' := List.mem_filter.mp hc
    simpa using h2 c hc'.1 (by simpa using hc'.2)
  rw [estimate_wait_time_eq, hne, hnil]
  simp

theorem estimate_wait_time_all_null_witness :
    (dbNull.consultations.filter (fun c => c.doctor_id == "d") ≠ [] ∧
      ∀ c ∈ dbNull.consultations, c.doctor_id = "d" → c.duration_minutes = none) ∧
    estimate_wait_time dbNull "d" = 15 := by
  refine ⟨⟨by decide, by decide⟩, ?_⟩
  exact estimate_wait_time_all_null dbNull "d" (by decide) (by decide)

/-- Truncation of an integer-valued rational is that integer. -/
theorem ratTrunc_intCast (n : Int) : ratTrunc (n : ℚ) = n := by
  simp [ratTrunc, Rat.num_intCast, Rat.den_intCast]

/-- C2: the wait-time estimator returns the default 15 when the doctor has
no consultation records at all (whatever the queue length), and when
non-null historical durations exist it returns their arithmetic mean
multiplied by the doctor's current queue entry count, truncated to an
integer. -/
theorem estimate_wait_time_spec (db : DB) (doctor_id : String) :
    (db.consultations.filter (fun c => c.doctor_id == doctor_id) = [] →
      estimate_wait_time db doctor_id = 15) ∧
    ((historicalDurations db doctor_id).filterMap id ≠ [] →
      estimate_wait_time db doctor_id =
        ratTrunc (((((historicalDurations db doctor_id).filterMap id).map
              (fun d => (d : ℚ))).sum /
            (((historicalDurations db doctor_id).filterMap id).length : ℚ)) *
          (queueLength db doctor_id : ℚ))) := by
  constructor
  · intro h
    have hne : historicalDurations db doctor_id = [] := by
      simp [historicalDurations, h]
    rw [estimate_wait_time_eq, hne]
    simp
  · intro h
    have h1 : (historicalDurations db doctor_id).isEmpty = false := by
      rw [List.isEmpty_eq_false]
      intro hx
      rw [hx] at h
      simp at h
    have h2 : ((historicalDurations db doctor_id).filterMap id).isEmpty = false := by
      rw [List.isEmpty_eq_false]
      exact h
    rw [estimate_wait_time_eq, h1, h2]
    simp [mul_comm]

theorem estimate_wait_time_spec_witness :
    ((historicalDurations dbStats "d").filterMap id ≠ [] ∧
      estimate_wait_time dbStats "d" = 40) ∧
    (dbStats.consultations.filter (fun c => c.doctor_id == "e") = [] ∧
      queueLength dbStats "e" = 3 ∧ estimate_wait_time dbStats "e" = 15) := by
  refine ⟨⟨by decide, ?_⟩, by decide, by decide, ?_⟩
  · have h := (estimate_wait_time_spec dbStats "d").2 (by decide)
    have hl : (historicalDurations dbStats "d").filterMap id = [10, 20, 30] := by
      decide
    have hq : queueLength dbStats "d" = 2 := by decide
    rw [h, hl, hq]
    have hcast : ((([10, 20, 30] : List Int).map (fun d => (d : ℚ))).sum /
        ((([10, 20, 30] : List Int).length : ℕ) : ℚ)) * ((2 : ℕ) : ℚ) =
        ((40 : Int) : ℚ) := by
      simp only [List.map_cons, List.map_nil, List.sum_cons, List.sum_nil,
        List.length_cons, List.length_nil]
      norm_num
    rw [hcast, ratTrunc_intCast]
  · exact (estimate_wait_time_spec dbStats "e").1 (by decide)

/-- C5: a join-queue request by a user who already holds any queue entry —
for the same or a different doctor — returns the conflict result and
leaves the store (hence the original entry) untouched; a user with no
existing entry gets exactly one new entry for the requested doctor with
the requested emergency flag, `false` when the field is absent. -/
theorem join_queue_spec (db : DB) (user_id doctor_id : String) (em : Option Bool)
    (now : Int) (new_id : Nat) :
    ((∃ e0 ∈ db.queue, e0.user_id = user_id) →
      join_queue db user_id doctor_id em now new_id = (.conflict, db)) ∧
    ((∀ e0 ∈ db.queue, e0.user_id ≠ user_id) →
      join_queue db user_id doctor_id em now new_id =
        (.joined, { db with queue := db.queue ++
          [{ id := new_id, user_id := user_id, doctor_id := doctor_id,
             joined_at := now, is_emergency := em.getD false }] })) := by
  constructor
  · rintro ⟨e0, he0, heq⟩
    have hs : (db.queue.find? (fun e => e.user_id == user_id)).isSome := by
      rw [List.find?_isSome]
      exact ⟨e0, he0, by simpa using heq⟩
    obtain ⟨e1, he1⟩ := Option.isSome_iff_exists.mp hs
    simp [join_queue, he1]
  · intro h
    have hn : db.queue.find? (fun e => e.user_id == user_id) = none := by
      rw [List.find?_eq_none]
      intro x hx
      simpa using h x hx
    simp [join_queue, hn]

theorem join_queue_spec_witness :
    ((∃ e0 ∈ dbTwo.queue, e0.user_id = "u1") ∧
      join_queue dbTwo "u1" "other_doc" (some true) 9 7 = (.conflict, dbTwo)) ∧
    ((∀ e0 ∈ dbTwo.queue, e0.user_id ≠ "u9") ∧
      join_queue dbTwo "u9" "d" none 9 7 =
        (.joined, { dbTwo with queue := dbTwo.queue ++
          [{ id := 7, user_id := "u9", doctor_id := "d",
             joined_at := 9, is_emergency := false }] })) := by
  refine ⟨⟨by decide, ?_⟩, by decide, ?_⟩
  · exact (join_queue_spec dbTwo "u1" "other_doc" (some true) 9 7).1 (by decide)
  · exact (join_queue_spec dbTwo "u9" "d" none 9 7).2 (by decide)

/-- C4: with a fresh queue-id column (primary keys pairwise distinct),
completing an unknown `queue_id` returns not-found and leaves the whole
store — queue and consultation history — unchanged; completing an existing
entry returns success and, in the single state update modelling the one
commit, removes exactly that entry from the queue (so no later
doctor-queue listing shows it) and appends exactly one consultation with
`start_time` the entry's `joined_at`, `end_time` the completion time, and
a duration of at least 1 minute. -/
theorem complete_consultation_spec (db : DB) (queue_id : Nat) (now : Int)
    (new_cid : Nat) (hnd : (db.queue.map (fun e => e.id)).Nodup) :
    ((∀ e ∈ db.queue, e.id ≠ queue_id) →
      complete_consultation db queue_id now new_cid = (.notFound, db)) ∧
    (∀ entry ∈ db.queue, entry.id = queue_id →
      (complete_consultation db queue_id now new_cid).1 = .completed ∧
      (∀ e ∈ (complete_consultation db queue_id now new_cid).2.queue,
        e.id ≠ queue_id) ∧
      (∀ e ∈ db.queue, e.id ≠ queue_id →
        e ∈ (complete_consultation db queue_id now new_cid).2.queue) ∧
      (complete_consultation db queue_id now new_cid).2.users = db.users ∧
      (complete_consultation db queue_id now new_cid).2.consultations =
        db.consultations ++
          [{ id := new_cid, patient_id := entry.user_id,
             doctor_id := entry.doctor_id, start_time := entry.joined_at,
             end_time := now,
             duration_minutes := some (recordedDuration entry.joined_at now) }] ∧
      1 ≤ recordedDuration entry.joined_at now ∧
      (∀ did : String, ∀ p ∈ get_doctor_queue
          (complete_consultation db queue_id now new_cid).2 did,
        p.queue_id ≠ queue_id)) := by
  constructor
  · intro h
    have hn : db.queue.find? (fun e => e.id == queue_id) = none := by
      rw [List.find?_eq_none]
      intro x hx
      simpa using h x hx
    simp [complete_consultation, hn]
  · intro entry hmem hid
    have hfind : db.queue.find? (fun e => e.id == queue_id) = some entry := by
      have hs : (db.queue.find? (fun e => e.id == queue_id)).isSome := by
        rw [List.find?_isSome]
        exact ⟨entry, hmem, by simpa using hid⟩
      obtain ⟨e1, he1⟩ := Option.isSome_iff_exists.mp hs
      have h1 : e1.id = queue_id := by simpa using List.find?_some he1
      have h2 : e1 ∈ db.queue := List.mem_of_find?_eq_some he1
      have h3 : e1 = entry :=
        List.inj_on_of_nodup_map hnd h2 hmem (by rw [h1, hid])
      rw [he1, h3]
    have hres : complete_consultation db queue_id now new_cid =
        (.completed,
          { db with
              consultations := db.consultations ++
                [{ id := new_cid, patient_id := entry.user_id,
                   doctor_id := entry.doctor_id, start_time := entry.joined_at,
                   end_time := now,
                   duration_minutes :=
                     some (recordedDuration entry.joined_at now) }],
              queue := db.queue.eraseP (fun e => e.id == queue_id) }) := by
      simp [complete_consultation, hfind]
    obtain ⟨a, l₁, l₂, hnl₁, hpa, hsplit, herase⟩ :=
      List.exists_of_eraseP (p := fun e => e.id == queue_id) hmem
        (by simpa using hid)
    have haid : a.id = queue_id := by simpa using hpa
    have hout : ∀ e ∈ l₁ ++ l₂, e.id ≠ queue_id := by
      have hnd' := hnd
      rw [hsplit, List.map_append, List.map_cons, List.nodup_append] at hnd'
      intro e he heq
      rcases List.mem_append.mp he with h | h
      · exact hnd'.2.2 (List.mem_map_of_mem _ h)
          (by rw [heq, ← haid]; exact List.mem_cons_self _ _)
      · exact (List.nodup_cons.mp hnd'.2.1).1
          (by rw [haid, ← heq]; exact List.mem_map_of_mem _ h)
    have hq2 : (complete_consultation db queue_id now new_cid).2.queue =
        l₁ ++ l₂ := by
      rw [hres]
      exact herase
    refine ⟨by rw [hres], ?_, ?_, by rw [hres], by rw [hres], ?_, ?_⟩
    · intro e he
      rw [hq2] at he
      exact hout e he
    · intro e he hne
      rw [hq2]
      rw [hsplit] at he
      rcases List.mem_append.mp he with h | h
      · exact List.mem_append.mpr (Or.inl h)
      · rcases List.mem_cons.mp h with rfl | h'
        · exact absurd haid hne
        · exact List.mem_append.mpr (Or.inr h')
    · unfold recordedDuration
      split <;> omega
    · intro did p hp hpq
      obtain ⟨e, he, _, hid', _⟩ :=
        get_doctor_queue_mem (complete_consultation db queue_id now new_cid).2
          did p hp
      rw [hq2] at he
      exact hout e he (by rw [← hid', hpq])

theorem complete_consultation_spec_witness :
    complete_consultation dbSolo 99 120 1 = (.notFound, dbSolo) ∧
    (complete_consultation dbSolo 1 120 1).1 = .completed ∧
    (complete_consultation dbSolo 1 120 1).2.consultations.map
      (fun c => (c.start_time, c.end_time, c.duration_minutes)) =
      [(0, 120, some 2)] ∧
    (complete_consultation dbSolo 1 120 1).2.queue = [] := by
  refine ⟨(complete_consultation_spec dbSolo 99 120 1 (by decide)).1 (by decide),
    ((complete_consultation_spec dbSolo 1 120 1 (by decide)).2 entrySolo
      (by decide) (by decide)).1, by decide, by decide⟩

/-- C9: a queue entry whose `user_id` matches no user is silently dropped
from the doctor-queue listing (its queue id appears in no listed record)
rather than causing a failure, and the listing never has more records than
the doctor has queue entries. -/
theorem doctor_queue_omits_unknown_users (db : DB) (doctor_id : String) :
    ((db.queue.map (fun e => e.id)).Nodup →
      ∀ e ∈ db.queue, e.doctor_id = doctor_id →
        (∀ u ∈ db.users, u.id ≠ e.user_id) →
        ∀ p ∈ get_doctor_queue db doctor_id, p.queue_id ≠ e.id) ∧
    (get_doctor_queue db doctor_id).length ≤
      (db.queue.filter (fun x => x.doctor_id == doctor_id)).length := by
  constructor
  · intro hnd e he _ hnone p hp heq
    obtain ⟨e', he', _, hid', u, hu, hui⟩ :=
      get_doctor_queue_mem db doctor_id p hp
    have h3 : e' = e := List.inj_on_of_nodup_map hnd he' he (by rw [← hid', heq])
    subst h3
    exact hnone u hu hui
  · calc (get_doctor_queue db doctor_id).length
        ≤ (doctorQueueSorted db doctor_id).length :=
          List.length_filterMap_le _ _
      _ = _ := by simp [doctorQueueSorted]

theorem doctor_queue_omits_unknown_users_witness :
    ((dbGhost.queue.map (fun e => e.id)).Nodup ∧
      entryGhost ∈ dbGhost.queue ∧ entryGhost.doctor_id = "d" ∧
      (∀ u ∈ dbGhost.users, u.id ≠ entryGhost.user_id)) ∧
    (∀ p ∈ get_doctor_queue dbGhost "d", p.queue_id ≠ entryGhost.id) ∧
    get_doctor_queue dbGhost "d" = [] ∧
    (dbGhost.queue.filter (fun x => x.doctor_id == "d")).length = 1 := by
  refine ⟨⟨by decide, by decide, by decide, by decide⟩,
    (doctor_queue_omits_unknown_users dbGhost "d").1 (by decide) entryGhost
      (by decide) (by decide) (by decide), ?_, by decide⟩
  have hfilt : dbGhost.queue.filter (fun e => e.doctor_id == "d") =
      [entryGhost] := by decide
  unfold get_doctor_queue doctorQueueSorted
  rw [hfilt, List.mergeSort_singleton]
  decide

/-- C1: for every doctor whose queued patients all exist, the doctor-queue
listing returns records for exactly the queue entries whose `doctor_id`
matches — their `queue_id`s are the ids of a permutation of the matching
entries — and that permutation is ordered emergency-first
(`is_emergency` descending) with `joined_at` ascending as tie-breaker. -/
theorem doctor_queue_listing_order (db : DB) (doctor_id : String)
    (husers : ∀ e ∈ db.queue, e.doctor_id = doctor_id →
      ∃ u ∈ db.users, u.id = e.user_id) :
    ((get_doctor_queue db doctor_id).map (fun p => p.queue_id) =
      (doctorQueueSorted db doctor_id).map (fun e => e.id)) ∧
    (doctorQueueSorted db doctor_id).Perm
      (db.queue.filter (fun e => e.doctor_id == doctor_id)) ∧
    (doctorQueueSorted db doctor_id).Pairwise
      (fun a b => (b.is_emergency = true → a.is_emergency = true) ∧
        (a.is_emergency = b.is_emergency → a.joined_at ≤ b.joined_at)) := by
  refine ⟨?_, List.mergeSort_perm _ _, ?_⟩
  · apply filterMap_map_eq_map
    intro e he
    have hef : e ∈ db.queue.filter (fun x => x.doctor_id == doctor_id) := by
      simpa [doctorQueueSorted] using he
    have he' := List.mem_filter.mp hef
    obtain ⟨u, hu, hui⟩ := husers e he'.1 (by simpa using he'.2)
    have hs : (db.users.find? (fun x => x.id == e.user_id)).isSome := by
      rw [List.find?_isSome]
      exact ⟨u, hu, by simpa using hui⟩
    obtain ⟨u0, hu0⟩ := Option.isSome_iff_exists.mp hs
    refine ⟨{ queue_id := e.id, user_id := u0.id,
              name := u0.first_name ++ " " ++ u0.last_name,
              joined_at := e.joined_at, is_emergency := e.is_emergency },
      ?_, rfl⟩
    rw [hu0]
    rfl
  · refine List.Pairwise.imp ?_
      (List.sorted_mergeSort displayLE_trans displayLE_total
        (db.queue.filter (fun e => e.doctor_id == doctor_id)))
    intro a b hab
    simp only [displayLE, Bool.or_eq_true, Bool.and_eq_true, beq_iff_eq,
      Bool.not_eq_true', decide_eq_true_eq] at hab
    constructor
    · intro hb
      rcases hab with ⟨_, hnb⟩ | ⟨heq, _⟩
      · rw [hb] at hnb
        cases hnb
      · rw [heq, hb]
    · intro heq
      rcases hab with ⟨ha', hb'⟩ | ⟨_, hle⟩
      · rw [heq, hb'] at ha'
        cases ha'
      · exact hle

theorem doctor_queue_listing_order_witness :
    (∀ e ∈ dbThree.queue, e.doctor_id = "d" →
      ∃ u ∈ dbThree.users, u.id = e.user_id) ∧
    ((get_doctor_queue dbThree "d").map (fun p => p.queue_id) =
      (doctorQueueSorted dbThree "d").map (fun e => e.id)) ∧
    (get_doctor_queue dbThree "d").map (fun p => p.queue_id) = [2, 1, 3] := by
  have h := (doctor_queue_listing_order dbThree "d" (by decide)).1
  refine ⟨by decide, h, ?_⟩
  have hfilt : dbThree.queue.filter (fun e => e.doctor_id == "d") =
      [⟨1, "u1", "d", 1, false⟩, ⟨2, "u2", "d", 2, true⟩,
       ⟨3, "u3", "d", 3, false⟩] := by decide
  have hsort : doctorQueueSorted dbThree "d" =
      [⟨2, "u2", "d", 2, true⟩, ⟨1, "u1", "d", 1, false⟩,
       ⟨3, "u3", "d", 3, false⟩] := by
    unfold doctorQueueSorted
    rw [hfilt]
    simp [List.mergeSort, List.splitInTwo, List.merge, displayLE]
  rw [h, hsort]
  decide

/-- In a list sorted by `joined_at` with pairwise-distinct `joined_at`
values, the index of a member is the number of elements with a strictly
earlier `joined_at`. -/
theorem findIdx_sorted_count_lt (l : List QueueEntry) (entry : QueueEntry)
    (hs : l.Pairwise (fun a b => a.joined_at ≤ b.joined_at))
    (hn : (l.map (fun e => e.joined_at)).Nodup)
    (hm : entry ∈ l) :
    l.findIdx (fun e => e == entry) =
      (l.filter (fun e => decide (e.joined_at < entry.joined_at))).length := by
  induction l with
  | nil => cases hm
  | cons a l ih =>
    rw [List.findIdx_cons]
    by_cases hae : a = entry
    · subst hae
      rw [show (a == a) = true by simp]
      simp only [cond_true]
      rw [List.filter_cons_of_neg (by simp)]
      rw [List.filter_eq_nil_iff.mpr ?none]
      · rfl
      case none =>
        intro x hx
        have hax := (List.pairwise_cons.mp hs).1 x hx
        simp only [decide_eq_true_eq]
        omega
    · rw [show (a == entry) = false by simpa using hae]
      simp only [cond_false]
      have hm' : entry ∈ l := by
        rcases List.mem_cons.mp hm with h | h
        · exact absurd h.symm hae
        · exact h
      have hnm : a.joined_at ∉ l.map (fun e => e.joined_at) ∧
          (l.map (fun e => e.joined_at)).Nodup := by
        rw [List.map_cons, List.nodup_cons] at hn
        exact hn
      have hle : a.joined_at ≤ entry.joined_at :=
        (List.pairwise_cons.mp hs).1 entry hm'
      have hne : a.joined_at ≠ entry.joined_at := by
        intro heq
        exact hnm.1 (heq ▸ List.mem_map_of_mem _ hm')
      rw [List.filter_cons_of_pos (by simp only [decide_eq_true_eq]; omega)]
      rw [List.length_cons,
        ih (List.pairwise_cons.mp hs).2 hnm.2 hm']

/-- C6: the queue-position handler returns not-found for a user with no
queue entry; for a user whose unique entry exists, it returns the entry's
doctor, the §4.7 wait estimate, and the 1-based chronological rank of the
entry among all entries of the same doctor — one plus the number of
same-doctor entries with strictly earlier `joined_at` — so the emergency
flag plays no part in the rank. -/
theorem queue_position_spec (db : DB) (user_id : String) :
    ((∀ e ∈ db.queue, e.user_id ≠ user_id) →
      get_queue_position db user_id = none) ∧
    (∀ entry ∈ db.queue, entry.user_id = user_id →
      (∀ e ∈ db.queue, e.user_id = user_id → e = entry) →
      ((db.queue.filter (fun e => e.doctor_id == entry.doctor_id)).map
        (fun e => e.joined_at)).Nodup →
      get_queue_position db user_id =
        some { position :=
                 ((db.queue.filter (fun e => e.doctor_id == entry.doctor_id)).filter
                   (fun e => decide (e.joined_at < entry.joined_at))).length + 1,
               doctor_id := entry.doctor_id,
               estimated_wait_minutes := estimate_wait_time db entry.doctor_id }) := by
  constructor
  · intro h
    have hn : db.queue.find? (fun e => e.user_id == user_id) = none := by
      rw [List.find?_eq_none]
      intro x hx
      simpa using h x hx
    simp [get_queue_position, hn]
  · intro entry hmem huser huniq hnodup
    have hfind : db.queue.find? (fun e => e.user_id == user_id) = some entry := by
      have hs : (db.queue.find? (fun e => e.user_id == user_id)).isSome := by
        rw [List.find?_isSome]
        exact ⟨entry, hmem, by simpa using huser⟩
      obtain ⟨e1, he1⟩ := Option.isSome_iff_exists.mp hs
      have h3 : e1 = entry :=
        huniq e1 (List.mem_of_find?_eq_some he1)
          (by simpa using List.find?_some he1)
      rw [he1, h3]
    have hperm := List.mergeSort_perm
      (db.queue.filter (fun e => e.doctor_id == entry.doctor_id)) chronLE
    have hsorted : ((db.queue.filter
        (fun e => e.doctor_id == entry.doctor_id)).mergeSort chronLE).Pairwise
        (fun a b => a.joined_at ≤ b.joined_at) := by
      refine List.Pairwise.imp ?_
        (List.sorted_mergeSort chronLE_trans chronLE_total _)
      intro a b hab
      simpa [chronLE] using hab
    have hmem' : entry ∈ (db.queue.filter
        (fun e => e.doctor_id == entry.doctor_id)).mergeSort chronLE := by
      rw [List.mem_mergeSort]
      exact List.mem_filter.mpr ⟨hmem, by simp⟩
    have hnodup' : (((db.queue.filter
        (fun e => e.doctor_id == entry.doctor_id)).mergeSort chronLE).map
        (fun e => e.joined_at)).Nodup :=
      (hperm.map (fun e => e.joined_at)).nodup_iff.mpr hnodup
    have hidx := findIdx_sorted_count_lt _ entry hsorted hnodup' hmem'
    have hflen : (((db.queue.filter
          (fun e => e.doctor_id == entry.doctor_id)).mergeSort chronLE).filter
          (fun e => decide (e.joined_at < entry.joined_at))).length =
        ((db.queue.filter (fun e => e.doctor_id == entry.doctor_id)).filter
          (fun e => decide (e.joined_at < entry.joined_at))).length :=
      (hperm.filter _).length_eq
    simp only [get_queue_position, hfind]
    rw [hidx, hflen]

theorem queue_position_spec_witness :
    get_queue_position dbTwo "u9" = none ∧
    (get_queue_position dbTwo "u2" =
      some { position := 2, doctor_id := "d", estimated_wait_minutes := 15 } ∧
      entryLate.is_emergency = true) := by
  refine ⟨(queue_position_spec dbTwo "u9").1 (by decide), ?_, by decide⟩
  have h := (queue_position_spec dbTwo "u2").2 entryLate (by decide) (by decide)
    (by decide) (by decide)
  rw [h]
  decide

end DocQueue
